import Mathlib

/-!
Shallow embedding of `src/PJSMod_Questionnaire.js`: the survey question
sequencer (`SurveyQuestionsModule`), its per-question interaction state
machine, the two input classes (`DiscreteInput`, `ContinuousInput`), and the
paged instructions stepper (`InstructionsModule`).

Conventions of the embedding:
- JS strings are Lean `String`s, except the continuous text buffer which is a
  `List Char` (a JS string is a sequence of code units; this eases length
  reasoning).  Key names delivered by the event manager are `String`s.
- JS `null` / `undefined` stored in `currentData.choice` are the explicit
  constructors of `JChoice`; the loose comparison `choice == null` (true for
  both `null` and `undefined`) is `jsIsNull`.
- Clock times are rationals; `clock.getTime()` at a poll arriving at absolute
  time `now` is `now - clockStart`, and `clock.reset()` sets `clockStart`
  to `now`.
- Code paths that throw a `TypeError` in JS (property access on `undefined`)
  are `Except.error JsError.undefinedProperty`.
-/

namespace Questionnaire

/-- `const SURVEY_CONTINUING = 0`. -/
def SURVEY_CONTINUING : Nat := 0
/-- `const SURVEY_SKIPPING = 1`. -/
def SURVEY_SKIPPING : Nat := 1
/-- `const SURVEY_BEGIN_SKIP = 2`. -/
def SURVEY_BEGIN_SKIP : Nat := 2

/-- `const TAKING_DISCRETE = 1` (trial stage for discrete input). -/
def TAKING_DISCRETE : Int := 1
/-- `const TAKING_CONTINUOUS = 2` (trial stage for continuous input). -/
def TAKING_CONTINUOUS : Int := 2
/-- `const DISPLAY_RESPONSE = 3` (trial stage for the linger display). -/
def DISPLAY_RESPONSE : Int := 3

/-- A JS `TypeError` raised by a property access on `undefined`, aborting the
run (the module has no exception handlers). -/
inductive JsError where
  | undefinedProperty
  deriving DecidableEq, Repr

/-- `Scheduler.Event`: a routine step either advances (`NEXT`) or asks to be
polled again next frame (`FLIP_REPEAT`). -/
inductive SchedEvent where
  | NEXT
  | FLIP_REPEAT
  deriving DecidableEq, Repr

/-- One entry of a discrete question's `inputs` array:
`{key, value, label?}` (plus the optional `additionalLines`, which only
affects layout and is not modelled). -/
structure OptionEntry where
  key : String
  value : String
  deriving DecidableEq, Repr

/-- One entry of an input's `skips` array: `{key, index}` where `index` is
the index of the question to skip to. -/
structure SkipEntry where
  key : String
  index : Nat
  deriving DecidableEq, Repr

/-- The `input` object of a question (or of a specify entry), tagged by its
`type` field (`"DISCRETE"` or `"CONTINUOUS"`).  A specify entry is the triple
`(key, question text, input)`: `_buildLoopStimuli` is called with the entry
itself and reads its `question` and `input` properties.  The discrete
`inputs` array is `Option`al: a spec missing it makes `inputs.map` in
`DiscreteInput.build` throw. -/
inductive InputSpec where
  | discrete (inputs : Option (List OptionEntry))
      (specify : List (String × String × InputSpec)) (skips : List SkipEntry)
  | continuous (keyList : String) (maxLength : Nat)
      (specify : List (String × String × InputSpec))

/-- A specify entry `{key, question, input}` as consumed by the loop. -/
abbrev SpecEntry := String × String × InputSpec

/-- The `key` property of a specify entry. -/
def SpecEntry.key (e : SpecEntry) : String := e.1

/-- The `question` (prompt text) property of a specify entry. -/
def SpecEntry.question (e : SpecEntry) : String := e.2.1

/-- The `input` property of a specify entry. -/
def SpecEntry.input (e : SpecEntry) : InputSpec := e.2.2

/-- The `type` string of an input spec (`question.input.type`). -/
def InputSpec.typeString : InputSpec → String
  | .discrete .. => "DISCRETE"
  | .continuous .. => "CONTINUOUS"

/-- One question of a survey: `{index, question, input}`. -/
structure QuestionSpec where
  index : Nat
  question : String
  input : InputSpec

/-- A survey object: `{set, linger, instructions, questions}`. -/
structure Survey where
  set : String
  linger : ℚ
  instructions : String
  questions : List QuestionSpec

/-- The value held in `this.currentData.choice`: initially the literal
`null`, set to the pressed key for a discrete answer and to `undefined` for a
continuous answer. -/
inductive JChoice where
  | null
  | undef
  | key (k : String)
  deriving DecidableEq, Repr

/-- JS loose equality `choice == null`, which is true for both `null` and
`undefined`. -/
def jsIsNull : JChoice → Bool
  | .null => true
  | .undef => true
  | .key _ => false

/-- One element pushed onto `currentData.specify`:
`{question, choice, RT, value}`. -/
structure SpecAnswer where
  question : String
  choice : JChoice
  RT : ℚ
  value : String

/-- `this.currentData`, the record accumulated for one visited question. -/
structure AnswerData where
  survey : String
  question_index : Nat
  question : String
  question_type : String
  choice : JChoice
  RT : Option ℚ
  value : Option String
  specify : List SpecAnswer

/-- The placeholder for the empty object `{}` assigned to `this.currentData`
after hand-off; every later read happens only after the next
`_SurveyQuestionBegin` overwrites it. -/
def emptyAnswerData : AnswerData :=
  { survey := "", question_index := 0, question := "", question_type := ""
    choice := .null, RT := none, value := none, specify := [] }

/-- The value held in `this.skipIndex`: the string `"none"` or a question
index number. -/
inductive SkipIdx where
  | none
  | idx (n : Nat)
  deriving DecidableEq, Repr

/-- JS `this.skipIndex != "none"`: a number is loosely unequal to the string
`"none"` (whose numeric coercion is `NaN`). -/
def skipIdxIsSet : SkipIdx → Bool
  | .none => false
  | .idx _ => true

/-- JS loose equality `this.question.index == this.skipIndex`.  The left side
is a property read on the prompt `TextStim`, which is never assigned an
`index` anywhere in the module, so it evaluates to `undefined` (modelled as
`Option.none`); `undefined` is loosely equal to neither a number nor a
string.  A number equals a number iff they are equal, and a number is never
loosely equal to the string `"none"`. -/
def stimIdxEqSkip : Option Nat → SkipIdx → Bool
  | Option.none, _ => false
  | some m, .idx n => m == n
  | some _, .none => false

/-- The value held in `this.specify`: the literal `{}` assigned by
`_SurveyQuestionBegin` (truthy), the `undefined` produced by a failed
`Array.find`, or a found specify entry. -/
inductive SpecVal where
  | emptyObj
  | undef
  | entry (key : String) (question : String) (input : InputSpec)

/-- JS truthiness of `this.specify` as used by `if (!this.specify)`: only
`undefined` is falsy; both `{}` and a found entry are truthy. -/
def SpecVal.truthy : SpecVal → Bool
  | .undef => false
  | _ => true

/-- The possible continuous letter keys, `const LETTERS`. -/
def LETTERS : List String :=
  ["a", "b", "c", "d", "e", "f", "g", "h", "i", "j", "k", "l", "m", "n", "o",
   "p", "q", "r", "s", "t", "u", "v", "w", "x", "y", "z", "minus", "space"]

/-- The continuous control keys, `const FUNCTIONALITY`. -/
def FUNCTIONALITY : List String := ["return", "backspace", "enter"]

/-- The possible continuous digit keys, `const NUMBERS`. -/
def NUMBERS : List String :=
  ["0", "1", "2", "3", "4", "5", "6", "7", "8", "9"]

/-- The mutable state of the currently selected input object
(`this.currentInput` after `build`): a `DiscreteInput` holds its `stimuli`
key/value association (insertion-ordered, as a JS object), its `specify` and
`skips` arrays; a `ContinuousInput` holds its text buffer, `keyList`,
`maxLength` and `specify`. -/
inductive InputState where
  | discrete (stimuli : List (String × String)) (specify : List SpecEntry)
      (skips : List SkipEntry)
  | continuous (text : List Char) (keyList : String) (maxLength : Nat)
      (specify : List SpecEntry)

/-- JS object property write `stimuli[k] = v`: keeps the first-insertion
position of an existing key, replacing its value; appends a new key. -/
def upsert (m : List (String × String)) (k v : String) :
    List (String × String) :=
  match m with
  | [] => [(k, v)]
  | (k', v') :: rest =>
      if k' = k then (k, v) :: rest else (k', v') :: upsert rest k v

/-- `DiscreteInput.build`: fills `this.stimuli` from the `inputs` array,
option by option (a duplicate key silently overwrites the earlier entry). -/
def buildStimuli (inputs : List OptionEntry) : List (String × String) :=
  inputs.foldl (fun m el => upsert m el.key el.value) []

/-- JS object property read `stimuli[k]`, yielding the stored option value
(`undefined`, i.e. `none`, for an absent key). -/
def lookupStim (stimuli : List (String × String)) (k : String) :
    Option String :=
  (stimuli.find? (fun p => p.1 == k)).map Prod.snd

/-- `_buildLoopStimuli`'s dispatch on `question.input.type` combined with the
selected input's `build` method.  `DiscreteInput.build(inputs, specify,
skips)` throws if the required `inputs` array is missing;
`ContinuousInput.build(keyList, maxLength, specify)` starts with an empty
text buffer. -/
def buildInput : InputSpec → Except JsError InputState
  | .discrete inputs specify skips =>
      match inputs with
      | Option.none => .error .undefinedProperty
      | some l => .ok (.discrete (buildStimuli l) specify skips)
  | .continuous keyList maxLength specify =>
      .ok (.continuous [] keyList maxLength specify)

/-- `ContinuousInput.getKeys()`: switches on the configured `keyList`. -/
def continuousGetKeys (keyList : String) : List String :=
  if keyList = "NUMBERS" then NUMBERS ++ FUNCTIONALITY
  else if keyList = "LETTERS" then LETTERS ++ FUNCTIONALITY
  else NUMBERS ++ LETTERS ++ FUNCTIONALITY

/-- `getKeys` of the current input: a `DiscreteInput` returns
`Object.keys(this.stimuli)`; a `ContinuousInput` switches on its
`keyList`. -/
def InputState.getKeys : InputState → List String
  | .discrete stimuli _ _ => stimuli.map Prod.fst
  | .continuous _ keyList _ _ => continuousGetKeys keyList

/-- `ContinuousInput.keyIn(keyName)`: backspace drops the last character;
otherwise, when there is room below `maxLength`, `space`/`minus` append a
literal space/hyphen and any other key name is upper-cased and appended. -/
def keyIn (text : List Char) (maxLength : Nat) (keyName : String) :
    List Char :=
  if keyName = "backspace" then text.dropLast
  else if text.length < maxLength then
    if keyName = "space" then text ++ [' ']
    else if keyName = "minus" then text ++ ['-']
    else text ++ (keyName.toList.map Char.toUpper)
  else text

/-- `ContinuousInput.optionSelected()`: returns the current text as `value`
together with the first specify entry whose `key` equals the lower-cased
current text (`undefined` when none does). -/
def contOptionSelected (text : List Char) (specify : List SpecEntry) :
    String × SpecVal :=
  (String.mk text,
   match specify.find?
       (fun e => SpecEntry.key e == String.mk (text.map Char.toLower)) with
   | Option.none => SpecVal.undef
   | some e => SpecVal.entry e.1 e.2.1 e.2.2)

/-- The descriptor returned by `DiscreteInput.optionSelected(key)`:
`{value, specify, skip}`. -/
structure Behavior where
  value : String
  specify : SpecVal
  skip : Option SkipEntry

/-- `DiscreteInput.optionSelected(key)`: reads `this.stimuli[key].value`
(throwing when `key` is not a built option) and finds the matching specify
and skip entries by key.  When the current input is a `ContinuousInput` the
same call hits `ContinuousInput.optionSelected`, which ignores the argument
and carries no `skip` property (read back as `undefined`). -/
def optionSelected : InputState → String → Except JsError Behavior
  | .discrete stimuli specify skips, key =>
      match lookupStim stimuli key with
      | Option.none => .error .undefinedProperty
      | some v =>
          .ok { value := v
                specify :=
                  match specify.find? (fun e => SpecEntry.key e == key) with
                  | Option.none => SpecVal.undef
                  | some e => SpecVal.entry e.1 e.2.1 e.2.2
                skip := skips.find? (fun s => s.key == key) }
  | .continuous text _ _ specify, _ =>
      let r := contOptionSelected text specify
      .ok { value := r.1, specify := r.2, skip := Option.none }

/-- `reset()` of the current input: a `ContinuousInput` clears its text; a
`DiscreteInput` only restores colors and visibility (not modelled). -/
def resetInput : InputState → InputState
  | .discrete stimuli specify skips => .discrete stimuli specify skips
  | .continuous _ keyList maxLength specify =>
      .continuous [] keyList maxLength specify

/-- The mutable fields of a `SurveyQuestionsModule` during one survey run
(purely visual fields such as positions, colors and `autoDraw` flags are not
modelled).  `questionStimIndex` is the `index` property of the prompt
`TextStim` `this.question`: nothing in the module ever assigns it, so the
read in `_SurveyQuestionBegin` yields `undefined` (`Option.none`). -/
structure SQState where
  status : Nat
  skipIndex : SkipIdx
  trialStage : Int
  currentData : AnswerData
  specifyVal : SpecVal
  questionText : String
  questionStimIndex : Option Nat
  currentInput : InputState
  clockStart : ℚ
  linger : ℚ
  surveySet : String

/-- One frame delivered to a routine step: the raw pending key presses (in
press order) and the absolute time of the frame. -/
structure Poll where
  pending : List String
  now : ℚ

/-- The body of `_SurveyQuestionBegin` after the skip check: resets the
clock, clears pending events, creates `this.currentData`, resets
`this.specify` to `{}` and `this.skipIndex` to `"none"`, sets `trialStage`
to 0 and builds the loop stimuli for the question.  The source mutates these
fields before `_buildLoopStimuli` can throw, but a throw aborts the whole
run, so the partially mutated state is unobservable. -/
def beginBody (st : SQState) (q : QuestionSpec) (now : ℚ) :
    Except JsError (SQState × SchedEvent) :=
  match buildInput q.input with
  | .error e => .error e
  | .ok ist =>
      .ok ({ st with
              clockStart := now
              currentData :=
                { survey := st.surveySet, question_index := q.index
                  question := q.question
                  question_type := q.input.typeString
                  choice := .null, RT := Option.none, value := Option.none
                  specify := [] }
              specifyVal := .emptyObj
              skipIndex := .none
              trialStage := 0
              questionText := q.question
              currentInput := ist }, .NEXT)

/-- `_SurveyQuestionBegin(question)`: while the run status is
`SURVEY_SKIPPING`, compares `this.question.index` (a property of the prompt
`TextStim`, hence `undefined`) with `this.skipIndex`; on a match it clears
the skip and continues into the body, otherwise it advances without touching
the state. -/
def surveyQuestionBegin (st : SQState) (q : QuestionSpec) (now : ℚ) :
    Except JsError (SQState × SchedEvent) :=
  if st.status = SURVEY_SKIPPING then
    if stimIdxEqSkip st.questionStimIndex st.skipIndex then
      beginBody { st with skipIndex := .none, status := SURVEY_CONTINUING }
        q now
    else .ok (st, .NEXT)
  else beginBody st q now

/-- The shared bookkeeping of both answer-taking stages: when
`this.currentData.choice == null` (loosely, so also for `undefined`) the
answer becomes the primary `choice`/`RT`/`value`; otherwise an entry is
pushed onto `currentData.specify`. -/
def recordAnswer (st : SQState) (choice : JChoice) (now : ℚ)
    (value : String) : SQState :=
  let d := st.currentData
  if jsIsNull d.choice then
    { st with currentData :=
        { d with choice := choice, RT := some (now - st.clockStart)
                 value := some value } }
  else
    { st with currentData :=
        { d with specify := d.specify ++
            [{ question := st.questionText, choice := choice
               RT := now - st.clockStart, value := value }] } }

/-- `case 0` of `_SurveyQuestionLoop`: draw the prompt and input, then move
to the taking stage matching the current input's `name`. -/
def stageRender (st : SQState) : SQState × SchedEvent :=
  let stage :=
    match st.currentInput with
    | .continuous .. => TAKING_CONTINUOUS
    | .discrete .. => TAKING_DISCRETE
  ({ st with trialStage := stage }, .FLIP_REPEAT)

/-- `case TAKING_DISCRETE` of `_SurveyQuestionLoop`: one poll of the keys
filtered by the current input's key list; the first pressed key is selected,
recorded (primary or specify), the returned specify/skip descriptors stored,
and the stage moves to `DISPLAY_RESPONSE` with the clock reset. -/
def stageDiscrete (st : SQState) (p : Poll) :
    Except JsError (SQState × SchedEvent) :=
  match p.pending.filter (fun k => st.currentInput.getKeys.contains k) with
  | [] => .ok (st, .FLIP_REPEAT)
  | key :: _ =>
      match optionSelected st.currentInput key with
      | .error e => .error e
      | .ok behavior =>
          let st1 := recordAnswer st (.key key) p.now behavior.value
          .ok ({ st1 with
                  specifyVal := behavior.specify
                  skipIndex :=
                    match behavior.skip with
                    | some sk => .idx sk.index
                    | Option.none => st1.skipIndex
                  trialStage := DISPLAY_RESPONSE
                  clockStart := p.now }, .FLIP_REPEAT)

/-- `case TAKING_CONTINUOUS` of `_SurveyQuestionLoop`.  The source iterates
`for (const key of input)` but reads `let keyName = input[0].name ||
input[0]` inside the loop, so every iteration processes the FIRST pending
key: if it is `return`/`enter` the answer is submitted once (the `break`
fires on the first iteration); otherwise `keyIn` is applied once per pending
key, always with the first key's name.  Calling `optionSelected()`/`keyIn`
on a `DiscreteInput` in this stage would throw (unreachable from a built
state). -/
def stageContinuous (st : SQState) (p : Poll) :
    Except JsError (SQState × SchedEvent) :=
  match p.pending.filter (fun k => st.currentInput.getKeys.contains k) with
  | [] => .ok (st, .FLIP_REPEAT)
  | k0 :: rest =>
      if k0 = "return" ∨ k0 = "enter" then
        match st.currentInput with
        | .continuous text _ _ specify =>
            let behavior := contOptionSelected text specify
            let st1 := recordAnswer st .undef p.now behavior.1
            .ok ({ st1 with
                    specifyVal := behavior.2
                    trialStage := DISPLAY_RESPONSE
                    clockStart := p.now }, .FLIP_REPEAT)
        | .discrete .. => .error .undefinedProperty
      else
        match st.currentInput with
        | .continuous text keyList maxLength specify =>
            let text' := (k0 :: rest).foldl
              (fun t _ => keyIn t maxLength k0) text
            .ok ({ st with currentInput :=
                    .continuous text' keyList maxLength specify },
                 .FLIP_REPEAT)
        | .discrete .. => .error .undefinedProperty

/-- `case DISPLAY_RESPONSE` of `_SurveyQuestionLoop`: once
`clock.getTime() >= this.linger`, reset the input; if `this.specify` is
falsy, promote the status to `SURVEY_BEGIN_SKIP` when a skip index was set
and mark the stage done (`-1`); otherwise rebuild the loop stimuli from the
stored specify entry (throwing when it is the initial `{}`, which has no
`input` property) and restart at stage 0.  The clock is NOT reset on the
rebuild path. -/
def stageDisplay (st : SQState) (p : Poll) :
    Except JsError (SQState × SchedEvent) :=
  if st.linger ≤ p.now - st.clockStart then
    let st0 := { st with currentInput := resetInput st.currentInput }
    if st0.specifyVal.truthy = false then
      let st1 :=
        if skipIdxIsSet st0.skipIndex then
          { st0 with status := SURVEY_BEGIN_SKIP }
        else st0
      .ok ({ st1 with trialStage := -1 }, .FLIP_REPEAT)
    else
      match st0.specifyVal with
      | .entry _ q inp =>
          match buildInput inp with
          | .error e => .error e
          | .ok ist =>
              .ok ({ st0 with questionText := q, currentInput := ist,
                              trialStage := 0 }, .FLIP_REPEAT)
      | _ => .error .undefinedProperty
  else .ok (st, .FLIP_REPEAT)

/-- `_SurveyQuestionLoop()`: returns immediately while the run status is
`SURVEY_SKIPPING`; otherwise dispatches on `this.trialStage`, the default
case (stage `-1`) hiding the prompt and ending the routine. -/
def surveyQuestionLoop (st : SQState) (p : Poll) :
    Except JsError (SQState × SchedEvent) :=
  if st.status = SURVEY_SKIPPING then .ok (st, .NEXT)
  else if st.trialStage = 0 then .ok (stageRender st)
  else if st.trialStage = TAKING_DISCRETE then stageDiscrete st p
  else if st.trialStage = TAKING_CONTINUOUS then stageContinuous st p
  else if st.trialStage = DISPLAY_RESPONSE then stageDisplay st p
  else .ok (st, .NEXT)

/-- `_SurveyQuestionEnd()`: emits nothing while skipping; advances
`SURVEY_BEGIN_SKIP` to `SURVEY_SKIPPING`; records `this.currentData` under
the key `this.survey_set + '_' + this.currentData.question_index` and clears
`this.currentData`. -/
def surveyQuestionEnd (st : SQState) : SQState × Option (String × AnswerData) :=
  if st.status = SURVEY_SKIPPING then (st, Option.none)
  else
    let st1 :=
      if st.status = SURVEY_BEGIN_SKIP then
        { st with status := SURVEY_SKIPPING }
      else st
    ({ st1 with currentData := emptyAnswerData },
     some (st1.surveySet ++ "_" ++ toString st1.currentData.question_index,
           st1.currentData))

/-- Drives `_SurveyQuestionLoop` with one `Poll` per frame until it signals
`NEXT`; yields `Option.none` when the supplied frames run out first. -/
def runLoopPolls (st : SQState) : List Poll → Except JsError (Option SQState)
  | [] => .ok Option.none
  | p :: ps =>
      match surveyQuestionLoop st p with
      | .error e => .error e
      | .ok (st', ev) =>
          match ev with
          | .NEXT => .ok (some st')
          | .FLIP_REPEAT => runLoopPolls st' ps

/-- One scheduled question iteration: `_SurveyQuestionBegin`, then
`_SurveyQuestionLoop` each frame until it advances, then
`_SurveyQuestionEnd`.  Yields the final state and the record handed to the
data sink (if any), or `Option.none` when the frames run out. -/
def runQuestion (st : SQState) (q : QuestionSpec) (beginNow : ℚ)
    (polls : List Poll) :
    Except JsError (Option (SQState × Option (String × AnswerData))) :=
  match surveyQuestionBegin st q beginNow with
  | .error e => .error e
  | .ok (st1, _) =>
      match runLoopPolls st1 polls with
      | .error e => .error e
      | .ok Option.none => .ok Option.none
      | .ok (some st2) => .ok (some (surveyQuestionEnd st2))

/-- A whole survey's scheduled question iterations, each driven by its own
begin time and frame list, accumulating the records handed to the sink. -/
def runSurveyQs (st : SQState) :
    List (QuestionSpec × ℚ × List Poll) →
    Except JsError (Option (SQState × List (String × AnswerData)))
  | [] => .ok (some (st, []))
  | (q, t, polls) :: rest =>
      match runQuestion st q t polls with
      | .error e => .error e
      | .ok Option.none => .ok Option.none
      | .ok (some (st', r)) =>
          match runSurveyQs st' rest with
          | .error e => .error e
          | .ok Option.none => .ok Option.none
          | .ok (some (st'', rs)) => .ok (some (st'', r.toList ++ rs))

/-- `_generateSurveyQuestionsLoop`: at load the survey's question indices are
mapped into the trial list and one begin/loop/end iteration is scheduled per
question.  No validation of the spec happens here. -/
def loadSurvey (s : Survey) : Except JsError (List Nat) :=
  .ok (s.questions.map (fun q => q.index))

/-- `var MAX_INSTRUCTIONS = 200` of the instructions module. -/
def MAX_INSTRUCTIONS : Nat := 200

/-- `_InstructionsRoutineEachFrame()` of `InstructionsModule`: reads the
pressed keys filtered by `["b", "n", "f"]` and inspects the first one;
`n` advances below the last slide, `b` retreats above the first, and `f` at
the last slide sets `currentIndex` to the sentinel `-1`.  Returns the new
`currentIndex` together with `slideFinished`. -/
def instructionsEachFrame (currentIndex : Int) (len : Nat)
    (buttonPress : List String) : Int × Bool :=
  match buttonPress with
  | [] => (currentIndex, false)
  | b :: _ =>
      if b = "n" ∧ currentIndex < (len : Int) - 1 then
        (currentIndex + 1, true)
      else if b = "b" ∧ currentIndex > 0 then (currentIndex - 1, true)
      else if b = "f" ∧ currentIndex = (len : Int) - 1 then (-1, true)
      else (currentIndex, false)

/-- The position dynamics of a whole instructions run, one frame's filtered
key presses per list element: the post-iteration check `currentIndex == -1`
stops the scheduler, after which no further frame runs. -/
def instructionsRun (idx : Int) (len : Nat) :
    List (List String) → Int
  | [] => idx
  | keys :: rest =>
      if idx = -1 then idx
      else instructionsRun (instructionsEachFrame idx len keys).1 len rest

/-- One scheduled slide iteration: `_InstructionsRoutineEachFrame` repeats
(`FLIP_REPEAT`) until a key press sets `slideFinished`; yields the new index
and the remaining frames, or `Option.none` when the frames run out with the
slide still showing. -/
def framesUntilFinished (idx : Int) (len : Nat) :
    List (List String) → Option (Int × List (List String))
  | [] => Option.none
  | keys :: rest =>
      let r := instructionsEachFrame idx len keys
      if r.2 then some (r.1, rest) else framesUntilFinished r.1 len rest

/-- The schedule generated by `_generateInstructionsLoop`: the `for..of`
over the `TrialHandler` (an external collaborator; with `nReps =
MAX_INSTRUCTIONS` and an undefined trial list it yields `MAX_INSTRUCTIONS`
iterations) schedules that many slide iterations, each followed by the check
that stops the scheduler at the sentinel.  Returns the number of completed
slide iterations and the final index. -/
def runInstructionsSchedule : Nat → Int → Nat → List (List String) →
    Nat × Int
  | 0, idx, _, _ => (0, idx)
  | fuel + 1, idx, len, polls =>
      match framesUntilFinished idx len polls with
      | Option.none => (0, idx)
      | some (idx', rest) =>
          if idx' = -1 then (1, idx')
          else
            let r := runInstructionsSchedule fuel idx' len rest
            (r.1 + 1, r.2)

/-- Case-insensitive string equality.  Modelled from the spec: the §4.2
phrase "matching specify entry by case-insensitive text match"; this is the
spec-side comparison against which the source behavior is checked. -/
def specCaseInsensitiveEq (a b : String) : Bool :=
  a.toList.map Char.toLower == b.toList.map Char.toLower

/-- The stored `this.specify` values on which the linger-expiry rebuild
cannot throw: either no specify follow-up, or an entry whose input spec
builds. -/
def specifyBuildOk : SpecVal → Prop
  | .undef => True
  | .emptyObj => False
  | .entry _ _ inp => (buildInput inp).isOk = true

/-- The key names `ContinuousInput.keyIn` can receive from the
`TAKING_CONTINUOUS` stage: members of the input's key list other than the
submit keys, which the stage intercepts before `keyIn`. -/
abbrev contLoopKey (keyList k : String) : Prop :=
  k ∈ continuousGetKeys keyList ∧ k ≠ "return" ∧ k ≠ "enter"

/-- Reference reading of a JS-object fill with duplicate keys: the value of
the LAST `inputs` entry carrying the key (`none` when no entry does). -/
def lastVal (inputs : List OptionEntry) (k : String) : Option String :=
  inputs.foldl (fun acc e => if e.key == k then some e.value else acc)
    Option.none

/-- What one `_SurveyQuestionLoop` step preserves about the module state:
the status can only stay or become `SURVEY_BEGIN_SKIP`, and neither the
survey set nor the recorded question index changes. -/
def loopRel (st st' : SQState) : Prop :=
  (st'.status = st.status ∨ st'.status = SURVEY_BEGIN_SKIP) ∧
  st'.surveySet = st.surveySet ∧
  st'.currentData.question_index = st.currentData.question_index

/-- A module state at the start of a survey run: the scheduled step before
the first question set `survey_set`, `survey_run_status :=
SURVEY_CONTINUING` and the survey's linger; the remaining fields hold
placeholder values, each overwritten by `_SurveyQuestionBegin` before it is
read. -/
def startState : SQState :=
  { status := SURVEY_CONTINUING, skipIndex := .none, trialStage := 0
    currentData := emptyAnswerData, specifyVal := .undef
    questionText := "", questionStimIndex := Option.none
    currentInput := .continuous [] "" 0 []
    clockStart := 0, linger := 1, surveySet := "S" }

/-- A module state whose run status is `SURVEY_SKIPPING`. -/
def skippingState : SQState := { startState with status := SURVEY_SKIPPING }

/-- Question 1 of the C1 scenario: discrete yes/no whose `n` option carries
a skip to the question with index 3. -/
def c1Q1 : QuestionSpec :=
  { index := 1, question := "Q1"
    input := .discrete
      (some [{ key := "y", value := "Yes" }, { key := "n", value := "No" }])
      [] [{ key := "n", index := 3 }] }

/-- Question 2 of the C1 scenario (index 2, between the trigger and the
target). -/
def c1Q2 : QuestionSpec :=
  { index := 2, question := "Q2", input := .continuous "LETTERS" 10 [] }

/-- Question 3 of the C1 scenario: its index equals the pending skip
target. -/
def c1Q3 : QuestionSpec :=
  { index := 3, question := "Q3", input := .continuous "LETTERS" 10 [] }

/-- The C1 scenario run: answer `n` on question 1 (arming the skip to index
3), then visit questions 2 and 3. -/
def c1Run : Except JsError (Option (SQState × List (String × AnswerData))) :=
  runSurveyQs startState
    [(c1Q1, 0, [{ pending := [], now := 0 }, { pending := ["n"], now := 0 },
                { pending := [], now := 2 }, { pending := [], now := 2 }]),
     (c1Q2, 3, [{ pending := [], now := 3 }]),
     (c1Q3, 4, [{ pending := [], now := 4 }])]

/-- A module state awaiting continuous input (letters, `maxLength` 10,
empty buffer), for the C2 scenario. -/
def c2State : SQState :=
  { startState with trialStage := TAKING_CONTINUOUS
                    currentInput := .continuous [] "LETTERS" 10 [] }

/-- The text buffer after one `_SurveyQuestionLoop` poll from `c2State`,
given the pending keys of the poll. -/
def c2TextAfter (pending : List String) : Option (List Char × Int) :=
  match surveyQuestionLoop c2State { pending := pending, now := 0 } with
  | .ok (st, _) =>
      match st.currentInput with
      | .continuous t _ _ _ => some (t, st.trialStage)
      | _ => Option.none
  | .error _ => Option.none

/-- The C3 scenario question: continuous with a specify entry chaining into
a discrete follow-up when the answer text is `ok`. -/
def c3Question : QuestionSpec :=
  { index := 1, question := "Q"
    input := .continuous "LETTERS" 10
      [("ok", "Follow",
        .discrete (some [{ key := "x", value := "Idk" }]) [] [])] }

/-- The C3 scenario run: type `OK`, submit with enter (primary answer),
linger, then answer the discrete specify follow-up with `x`, linger, and
finish the question. -/
def c3Run : Except JsError (Option (SQState × Option (String × AnswerData))) :=
  runQuestion startState c3Question 0
    [{ pending := [], now := 0 }, { pending := ["o"], now := 0 },
     { pending := ["k"], now := 0 }, { pending := ["enter"], now := 0 },
     { pending := [], now := 2 }, { pending := [], now := 2 },
     { pending := ["x"], now := 2 }, { pending := [], now := 10 },
     { pending := [], now := 10 }]

/-- The C5 scenario: a survey whose first question has a duplicate option
key and a skip entry whose target index 99 names no question in the list. -/
def c5Q1 : QuestionSpec :=
  { index := 1, question := "Q1"
    input := .discrete
      (some [{ key := "y", value := "Yes" }, { key := "y", value := "No" }])
      [] [{ key := "n", index := 99 }] }

/-- The malformed C5 survey (duplicate option key, dangling skip target). -/
def c5Survey : Survey :=
  { set := "S", linger := 1, instructions := ""
    questions := [c5Q1,
      { index := 2, question := "Q2"
        input := .continuous "LETTERS" 10 [] }] }

/-- The C8 scenario specify list: a single entry whose key is the
upper-case string `OK`. -/
def c8Specify : List SpecEntry :=
  [("OK", "Why?", InputSpec.continuous "LETTERS" 10 [])]

/-- A lower-case-keyed specify list used to witness the amended C8
statement. -/
def c8LowerSpecify : List SpecEntry :=
  [("ok", "Q", InputSpec.continuous "LETTERS" 5 [])]

/-- A module state sitting in the `DISPLAY_RESPONSE` stage with no specify
follow-up pending, used to witness the C6 linger invariant. -/
def c6DisplayState : SQState :=
  { startState with trialStage := DISPLAY_RESPONSE }

/-!  Theorems.  -/

unseal Rat.sub in
/-- C1: evaluation of the code on the claim's scenario.  Question 1's `n`
answer arms a skip with target index 3, yet after it only question 1's
record is emitted: questions 2 AND 3 are both skipped, the run status is
still `SURVEY_SKIPPING` at the end and the pending target is still set —
reaching the question whose index equals the target does NOT clear the skip,
because `_SurveyQuestionBegin` compares `this.question.index` (an absent
property of the prompt `TextStim`, hence `undefined`) instead of the
`question.index` parameter.  The last conjunct shows `_SurveyQuestionBegin`
on the target question itself, while skipping, advancing with the state
untouched. -/
theorem c1_skip_target_never_cleared :
    (match c1Run with
     | .ok (some (st, rs)) =>
         some (rs.map Prod.fst, st.status, skipIdxIsSet st.skipIndex)
     | _ => Option.none) = some (["S_1"], SURVEY_SKIPPING, true) ∧
    (surveyQuestionBegin { skippingState with skipIndex := .idx 3 } c1Q3
        0).toOption.map (fun r => (r.1.status, skipIdxIsSet r.1.skipIndex, r.2))
      = some (SURVEY_SKIPPING, true, SchedEvent.NEXT) := by decide

/-- C2: evaluation of the code on a poll with two pending keys.  The
`TAKING_CONTINUOUS` stage reads `input[0]` inside its `for (const key of
input)` loop, so pending `["a", "b"]` appends `A` twice (the claim's
per-key processing would give `AB`), and pending `["a", "enter"]` also
appends `A` twice — the submit key in second position is swallowed and no
submit happens (the stage stays `TAKING_CONTINUOUS`). -/
theorem c2_drain_uses_first_key_only :
    c2TextAfter ["a", "b"] = some (['A', 'A'], TAKING_CONTINUOUS) ∧
    c2TextAfter ["a", "enter"] = some (['A', 'A'], TAKING_CONTINUOUS) := by
  decide

unseal Rat.sub in
/-- C3: evaluation of the code on a continuous-primary specify chain.  The
primary answer `OK` (recorded with `choice = undefined`) chains into a
discrete follow-up; answering it with `x` passes the loose
`currentData.choice == null` test again, so the final record has the
follow-up as its primary (`choice = "x"`, `value = "Idk"`) and an EMPTY
specify list — the primary fields were overwritten instead of the follow-up
being appended. -/
theorem c3_continuous_primary_overwritten :
    (match c3Run with
     | .ok (some (_, some (k, d))) =>
         some (k, d.choice, d.value, d.specify.length)
     | _ => Option.none)
      = some ("S_1", JChoice.key "x", some "Idk", 0) := by decide

/-- C8 counterexample: a specify entry with key `OK` and buffer text `OK`
match under the spec's case-insensitive comparison, yet
`ContinuousInput.optionSelected` returns no specify entry, because it
lower-cases only the text and compares the key verbatim (`"OK" ==
"ok"` is false). -/
theorem c8_match_not_case_insensitive :
    (contOptionSelected ['O', 'K'] c8Specify).2.truthy = false ∧
    specCaseInsensitiveEq "OK" (String.mk ['O', 'K']) = true := by decide

/-- C5 counterexample: the malformed survey (duplicate option key `y` in
question 1, skip target 99 absent from the question list) loads
successfully, question 1's `_SurveyQuestionBegin` runs without error (so
interaction begins), and the duplicate key is silently collapsed with the
last entry winning — no failure happens at survey load. -/
theorem c5_malformed_survey_loads :
    (loadSurvey c5Survey).toOption = some [1, 2] ∧
    (surveyQuestionBegin startState c5Q1 0).toOption.map
        (fun r => (r.1.trialStage, r.2)) = some (0, SchedEvent.NEXT) ∧
    buildStimuli [{ key := "y", value := "Yes" },
                  { key := "y", value := "No" }] = [("y", "No")] := by decide

/-- `stageRender` only changes the trial stage. -/
theorem stageRender_fields (st : SQState) :
    (stageRender st).1.status = st.status ∧
    (stageRender st).1.surveySet = st.surveySet ∧
    (stageRender st).1.currentData.question_index =
      st.currentData.question_index :=
  ⟨rfl, rfl, rfl⟩

/-- `recordAnswer` changes neither the status, the survey set, nor the
recorded question index. -/
theorem recordAnswer_fields (st : SQState) (c : JChoice) (now : ℚ)
    (v : String) :
    (recordAnswer st c now v).status = st.status ∧
    (recordAnswer st c now v).surveySet = st.surveySet ∧
    (recordAnswer st c now v).currentData.question_index =
      st.currentData.question_index := by
  by_cases hc : jsIsNull st.currentData.choice
  · simp [recordAnswer, hc]
  · simp [recordAnswer, hc]

/-- The `TAKING_DISCRETE` stage preserves the status, the survey set and the
recorded question index. -/
theorem stageDiscrete_fields (st : SQState) (p : Poll) (st' : SQState)
    (ev : SchedEvent) (h : stageDiscrete st p = .ok (st', ev)) :
    st'.status = st.status ∧ st'.surveySet = st.surveySet ∧
    st'.currentData.question_index = st.currentData.question_index := by
  unfold stageDiscrete at h
  split at h
  · simp only [Except.ok.injEq, Prod.mk.injEq] at h
    obtain ⟨rfl, rfl⟩ := h
    exact ⟨rfl, rfl, rfl⟩
  · split at h
    · exact absurd h (by simp)
    · simp only [Except.ok.injEq, Prod.mk.injEq] at h
      obtain ⟨rfl, rfl⟩ := h
      exact recordAnswer_fields st _ p.now _

/-- The `TAKING_CONTINUOUS` stage preserves the status, the survey set and
the recorded question index. -/
theorem stageContinuous_fields (st : SQState) (p : Poll) (st' : SQState)
    (ev : SchedEvent) (h : stageContinuous st p = .ok (st', ev)) :
    st'.status = st.status ∧ st'.surveySet = st.surveySet ∧
    st'.currentData.question_index = st.currentData.question_index := by
  unfold stageContinuous at h
  split at h
  · simp only [Except.ok.injEq, Prod.mk.injEq] at h
    obtain ⟨rfl, rfl⟩ := h
    exact ⟨rfl, rfl, rfl⟩
  · split at h
    · split at h
      · simp only [Except.ok.injEq, Prod.mk.injEq] at h
        obtain ⟨rfl, rfl⟩ := h
        exact recordAnswer_fields st _ p.now _
      · exact absurd h (by simp)
    · split at h
      · simp only [Except.ok.injEq, Prod.mk.injEq] at h
        obtain ⟨rfl, rfl⟩ := h
        exact ⟨rfl, rfl, rfl⟩
      · exact absurd h (by simp)

/-- The `DISPLAY_RESPONSE` stage can only promote the status to
`SURVEY_BEGIN_SKIP`, preserving the survey set and the recorded question
index. -/
theorem stageDisplay_fields (st : SQState) (p : Poll) (st' : SQState)
    (ev : SchedEvent) (h : stageDisplay st p = .ok (st', ev)) :
    (st'.status = st.status ∨ st'.status = SURVEY_BEGIN_SKIP) ∧
    st'.surveySet = st.surveySet ∧
    st'.currentData.question_index = st.currentData.question_index := by
  simp only [stageDisplay] at h
  split at h
  · split at h
    · split at h
      · simp only [Except.ok.injEq, Prod.mk.injEq] at h
        obtain ⟨rfl, rfl⟩ := h
        exact ⟨Or.inr rfl, rfl, rfl⟩
      · simp only [Except.ok.injEq, Prod.mk.injEq] at h
        obtain ⟨rfl, rfl⟩ := h
        exact ⟨Or.inl rfl, rfl, rfl⟩
    · split at h
      · split at h
        · exact absurd h (by simp)
        · simp only [Except.ok.injEq, Prod.mk.injEq] at h
          obtain ⟨rfl, rfl⟩ := h
          exact ⟨Or.inl rfl, rfl, rfl⟩
      · exact absurd h (by simp)
  · simp only [Except.ok.injEq, Prod.mk.injEq] at h
    obtain ⟨rfl, rfl⟩ := h
    exact ⟨Or.inl rfl, rfl, rfl⟩

/-- One `_SurveyQuestionLoop` step satisfies `loopRel`. -/
theorem loop_fields (st : SQState) (p : Poll) (st' : SQState)
    (ev : SchedEvent) (h : surveyQuestionLoop st p = .ok (st', ev)) :
    loopRel st st' := by
  unfold surveyQuestionLoop at h
  split at h
  · simp only [Except.ok.injEq, Prod.mk.injEq] at h
    obtain ⟨rfl, rfl⟩ := h
    exact ⟨Or.inl rfl, rfl, rfl⟩
  · split at h
    · simp only [Except.ok.injEq, Prod.mk.injEq] at h
      obtain ⟨rfl, rfl⟩ := h
      have hf := stageRender_fields st
      exact ⟨Or.inl hf.1, hf.2.1, hf.2.2⟩
    · split at h
      · have hf := stageDiscrete_fields st p st' ev h
        exact ⟨Or.inl hf.1, hf.2.1, hf.2.2⟩
      · split at h
        · have hf := stageContinuous_fields st p st' ev h
          exact ⟨Or.inl hf.1, hf.2.1, hf.2.2⟩
        · split at h
          · exact stageDisplay_fields st p st' ev h
          · simp only [Except.ok.injEq, Prod.mk.injEq] at h
            obtain ⟨rfl, rfl⟩ := h
            exact ⟨Or.inl rfl, rfl, rfl⟩

/-- `loopRel` composes. -/
theorem loopRel_trans {a b c : SQState} (h1 : loopRel a b)
    (h2 : loopRel b c) : loopRel a c := by
  obtain ⟨s1, e1, i1⟩ := h1
  obtain ⟨s2, e2, i2⟩ := h2
  refine ⟨?_, e2.trans e1, i2.trans i1⟩
  rcases s2 with h | h
  · rw [h]; exact s1
  · exact Or.inr h

/-- Any run of `_SurveyQuestionLoop` frames satisfies `loopRel`. -/
theorem runLoopPolls_fields (polls : List Poll) (st st' : SQState)
    (h : runLoopPolls st polls = .ok (some st')) : loopRel st st' := by
  induction polls generalizing st with
  | nil => simp [runLoopPolls] at h
  | cons p ps ih =>
      unfold runLoopPolls at h
      split at h
      · exact absurd h (by simp)
      · rename_i st1 ev heq
        split at h
        · simp only [Except.ok.injEq, Option.some.injEq] at h
          exact h ▸ loop_fields st p st1 _ heq
        · exact loopRel_trans (loop_fields st p st1 _ heq) (ih st1 h)

/-- The body of `_SurveyQuestionBegin` keeps the status and survey set and
stamps the question's index into the fresh record. -/
theorem beginBody_fields (st : SQState) (q : QuestionSpec) (now : ℚ)
    (st' : SQState) (ev : SchedEvent)
    (h : beginBody st q now = .ok (st', ev)) :
    st'.status = st.status ∧ st'.surveySet = st.surveySet ∧
    st'.currentData.question_index = q.index := by
  unfold beginBody at h
  split at h
  · exact absurd h (by simp)
  · simp only [Except.ok.injEq, Prod.mk.injEq] at h
    obtain ⟨rfl, rfl⟩ := h
    exact ⟨rfl, rfl, rfl⟩

/-- C4: while skipping, `_SurveyQuestionEnd` hands off nothing and leaves
the state unchanged; at `SURVEY_BEGIN_SKIP` it advances the status to
`SURVEY_SKIPPING` but still records the question's own answer; and a full
question iteration hands exactly one record (under the question's key) to
the sink iff the question was not entered while skipping. -/
theorem c4_record_discipline :
    (∀ st : SQState, st.status = SURVEY_SKIPPING →
       surveyQuestionEnd st = (st, Option.none)) ∧
    (∀ st : SQState, st.status = SURVEY_BEGIN_SKIP →
       (surveyQuestionEnd st).1.status = SURVEY_SKIPPING ∧
       (surveyQuestionEnd st).2 =
         some (st.surveySet ++ "_" ++ toString st.currentData.question_index,
               st.currentData)) ∧
    (∀ (st : SQState) (q : QuestionSpec) (t : ℚ) (polls : List Poll)
       (st' : SQState) (r : Option (String × AnswerData)),
       st.questionStimIndex = Option.none →
       runQuestion st q t polls = .ok (some (st', r)) →
       (st.status = SURVEY_SKIPPING → st' = st ∧ r = Option.none) ∧
       (st.status ≠ SURVEY_SKIPPING →
          ∃ d, r = some (st.surveySet ++ "_" ++ toString q.index, d))) := by
  refine ⟨?_, ?_, ?_⟩
  · intro st hs
    simp [surveyQuestionEnd, hs]
  · intro st hs
    have hne : st.status ≠ SURVEY_SKIPPING := by rw [hs]; decide
    simp [surveyQuestionEnd, hs, hne, SURVEY_BEGIN_SKIP, SURVEY_SKIPPING]
  · intro st q t polls st' r hidx h
    by_cases hs : st.status = SURVEY_SKIPPING
    · have hbeg : surveyQuestionBegin st q t = .ok (st, .NEXT) := by
        simp [surveyQuestionBegin, hs, hidx, stimIdxEqSkip]
      simp only [runQuestion, hbeg] at h
      cases polls with
      | nil => simp [runLoopPolls] at h
      | cons p ps =>
          have hloop : surveyQuestionLoop st p = .ok (st, .NEXT) := by
            simp [surveyQuestionLoop, hs]
          have hend : surveyQuestionEnd st = (st, Option.none) := by
            simp [surveyQuestionEnd, hs]
          simp only [runLoopPolls, hloop, hend] at h
          simp only [Except.ok.injEq, Option.some.injEq, Prod.mk.injEq] at h
          obtain ⟨rfl, rfl⟩ := h
          exact ⟨fun _ => ⟨rfl, rfl⟩, fun hns => absurd hs hns⟩
    · refine ⟨fun hcon => absurd hcon hs, fun _ => ?_⟩
      rw [runQuestion] at h
      split at h
      · exact absurd h (by simp)
      · rename_i st1 ev heqb
        have hb : beginBody st q t = .ok (st1, ev) := by
          rw [surveyQuestionBegin, if_neg hs] at heqb
          exact heqb
        have hbf := beginBody_fields st q t st1 ev hb
        split at h
        · exact absurd h (by simp)
        · exact absurd h (by simp)
        · rename_i st2 heql
          have hlf := runLoopPolls_fields _ _ _ heql
          have hst2 : st2.status ≠ SURVEY_SKIPPING := by
            rcases hlf.1 with he | he
            · rw [he, hbf.1]; exact hs
            · rw [he]; decide
          simp only [Except.ok.injEq, Option.some.injEq] at h
          have hr : r = (surveyQuestionEnd st2).2 := by rw [h]
          have hset : st2.surveySet = st.surveySet :=
            hlf.2.1.trans hbf.2.1
          have hqi : st2.currentData.question_index = q.index :=
            hlf.2.2.trans hbf.2.2
          have h2 : (surveyQuestionEnd st2).2 =
              some (st.surveySet ++ "_" ++ toString q.index,
                    st2.currentData) := by
            by_cases hbs : st2.status = SURVEY_BEGIN_SKIP
            · simp [surveyQuestionEnd, hst2, hbs, hset, hqi,
                    SURVEY_BEGIN_SKIP, SURVEY_SKIPPING]
            · simp [surveyQuestionEnd, hst2, hbs, hset, hqi]
          exact ⟨st2.currentData, by rw [hr, h2]⟩

/-- Witness for C4: a concrete skipping state emits no record and is left
unchanged by `_SurveyQuestionEnd`. -/
theorem c4_record_discipline_witness :
    skippingState.status = SURVEY_SKIPPING ∧
    surveyQuestionEnd skippingState = (skippingState, Option.none) :=
  ⟨rfl, c4_record_discipline.1 skippingState rfl⟩

/-- C6: in the `DISPLAY_RESPONSE` stage (outside skipping, with a buildable
specify value), a poll whose elapsed time since the answer is strictly below
the linger changes nothing, and the first poll at or above the linger leaves
the stage — to done (`-1`) or back to `0` for a specify follow-up. -/
theorem c6_linger_invariant (st : SQState) (p : Poll)
    (hstage : st.trialStage = DISPLAY_RESPONSE)
    (hstatus : st.status ≠ SURVEY_SKIPPING)
    (hbuild : specifyBuildOk st.specifyVal) :
    (p.now - st.clockStart < st.linger →
       surveyQuestionLoop st p = .ok (st, .FLIP_REPEAT)) ∧
    (st.linger ≤ p.now - st.clockStart →
       ∃ st', surveyQuestionLoop st p = .ok (st', .FLIP_REPEAT) ∧
         (st'.trialStage = -1 ∨ st'.trialStage = 0)) := by
  have h0 : ¬st.trialStage = 0 := by rw [hstage]; decide
  have h1 : ¬st.trialStage = TAKING_DISCRETE := by rw [hstage]; decide
  have h2 : ¬st.trialStage = TAKING_CONTINUOUS := by rw [hstage]; decide
  have hroute : surveyQuestionLoop st p = stageDisplay st p := by
    rw [surveyQuestionLoop, if_neg hstatus, if_neg h0, if_neg h1, if_neg h2,
        if_pos hstage]
  constructor
  · intro hlt
    rw [hroute, stageDisplay, if_neg (not_le.mpr hlt)]
  · intro hle
    rw [hroute, stageDisplay, if_pos hle]
    cases hsv : st.specifyVal with
    | undef =>
        by_cases hsk : skipIdxIsSet st.skipIndex = true
        · simp only [hsv, SpecVal.truthy, hsk, if_true, if_false]
          exact ⟨_, rfl, Or.inl rfl⟩
        · simp only [hsv, SpecVal.truthy, hsk, if_true, if_false]
          exact ⟨_, rfl, Or.inl rfl⟩
    | emptyObj =>
        rw [hsv] at hbuild
        simp [specifyBuildOk] at hbuild
    | entry k q inp =>
        rw [hsv] at hbuild
        simp only [specifyBuildOk] at hbuild
        obtain ⟨ist, hist⟩ : ∃ ist, buildInput inp = .ok ist := by
          cases hbi : buildInput inp with
          | error e =>
              rw [hbi] at hbuild
              exact absurd hbuild (by unfold Except.isOk Except.toBool; simp)
          | ok ist => exact ⟨ist, rfl⟩
        simp only [hsv, SpecVal.truthy, hist, if_true, if_false]
        exact ⟨_, rfl, Or.inr rfl⟩

unseal Rat.sub in
/-- Witness for C6: at a concrete display-stage state with linger 1, a poll
at elapsed 0 repeats unchanged and a poll at elapsed 2 leaves the stage. -/
theorem c6_linger_invariant_witness :
    (surveyQuestionLoop c6DisplayState { pending := [], now := 0 } =
       .ok (c6DisplayState, .FLIP_REPEAT)) ∧
    (∃ st', surveyQuestionLoop c6DisplayState { pending := [], now := 2 } =
       .ok (st', .FLIP_REPEAT) ∧ (st'.trialStage = -1 ∨ st'.trialStage = 0)) :=
  ⟨(c6_linger_invariant c6DisplayState { pending := [], now := 0 } rfl
      (by decide) trivial).1 (by decide),
   (c6_linger_invariant c6DisplayState { pending := [], now := 2 } rfl
      (by decide) trivial).2 (by decide)⟩

/-- Each branch of `ContinuousInput.getKeys` is drawn from the union of the
three source key arrays. -/
theorem continuousGetKeys_subset (keyList k : String)
    (h : k ∈ continuousGetKeys keyList) :
    k ∈ NUMBERS ++ LETTERS ++ FUNCTIONALITY := by
  have hnf : ∀ x ∈ NUMBERS ++ FUNCTIONALITY,
      x ∈ NUMBERS ++ LETTERS ++ FUNCTIONALITY := by decide
  have hlf : ∀ x ∈ LETTERS ++ FUNCTIONALITY,
      x ∈ NUMBERS ++ LETTERS ++ FUNCTIONALITY := by decide
  unfold continuousGetKeys at h
  split at h
  · exact hnf k h
  · split at h
    · exact hlf k h
    · exact h

/-- Every continuous key is a submit key, a control key, or a key whose
upper-cased name is a single character. -/
theorem contKey_shape :
    ∀ k ∈ NUMBERS ++ LETTERS ++ FUNCTIONALITY,
      k = "return" ∨ k = "enter" ∨ k = "backspace" ∨ k = "space" ∨
        k = "minus" ∨ (k.toList.map Char.toUpper).length = 1 := by decide

/-- One `keyIn` with a stage-permitted key keeps the buffer within
`maxLength`. -/
theorem keyIn_length_le (keyList k : String) (hk : contLoopKey keyList k)
    (t : List Char) (m : Nat) (ht : t.length ≤ m) :
    (keyIn t m k).length ≤ m := by
  obtain ⟨hmem, hr, he⟩ := hk
  have hshape := contKey_shape k (continuousGetKeys_subset keyList k hmem)
  unfold keyIn
  by_cases hb : k = "backspace"
  · rw [if_pos hb]
    rw [List.length_dropLast]
    omega
  · rw [if_neg hb]
    by_cases hlt : t.length < m
    · rw [if_pos hlt]
      by_cases hsp : k = "space"
      · rw [if_pos hsp]
        simp only [List.length_append, List.length_singleton]
        omega
      · rw [if_neg hsp]
        by_cases hmn : k = "minus"
        · rw [if_pos hmn]
          simp only [List.length_append, List.length_singleton]
          omega
        · rw [if_neg hmn]
          have hone : (k.toList.map Char.toUpper).length = 1 := by
            rcases hshape with h | h | h | h | h | h
            · exact absurd h hr
            · exact absurd h he
            · exact absurd h hb
            · exact absurd h hsp
            · exact absurd h hmn
            · exact h
          rw [List.length_append, hone]
          omega
    · rw [if_neg hlt]
      exact ht


/-- A fold of stage-permitted `keyIn` presses keeps the buffer within
`maxLength`. -/
theorem keyIn_foldl_length (keyList : String) (keys : List String)
    (t : List Char) (m : Nat)
    (hks : ∀ k ∈ keys, contLoopKey keyList k) (ht : t.length ≤ m) :
    (keys.foldl (fun u k => keyIn u m k) t).length ≤ m := by
  induction keys generalizing t with
  | nil => exact ht
  | cons k ks ih =>
      exact ih _ (fun x hx => hks x (List.mem_cons_of_mem _ hx))
        (keyIn_length_le keyList k (hks k (List.mem_cons_self k ks)) t m ht)

/-- C7: continuous text-buffer invariants — any sequence of stage-permitted
`keyIn` presses keeps the buffer within `maxLength`; a non-delete key at
`maxLength` is a no-op; backspace on an empty buffer leaves it empty; and
submitting an empty buffer yields the empty-string value. -/
theorem c7_buffer_invariants (keyList : String) :
    (∀ (keys : List String) (t : List Char) (m : Nat),
       (∀ k ∈ keys, contLoopKey keyList k) → t.length ≤ m →
       (keys.foldl (fun u k => keyIn u m k) t).length ≤ m) ∧
    (∀ (k : String) (t : List Char) (m : Nat), k ≠ "backspace" →
       t.length = m → keyIn t m k = t) ∧
    (∀ m : Nat, keyIn [] m "backspace" = []) ∧
    (∀ specify : List SpecEntry, (contOptionSelected [] specify).1 = "") := by
  refine ⟨?_, ?_, ?_, ?_⟩
  · intro keys t m hks ht
    exact keyIn_foldl_length keyList keys t m hks ht
  · intro k t m hk hlen
    rw [keyIn, if_neg hk, if_neg (by omega)]
  · intro m
    rfl
  · intro specify
    rfl

/-- Witness for C7: typing `a`, `minus`, backspace, `b`, `c` into a
two-character buffer stays within bounds, and a letter at a full buffer is
dropped. -/
theorem c7_buffer_invariants_witness :
    ((["a", "minus", "backspace", "b", "c"].foldl
        (fun u k => keyIn u 2 k) []).length ≤ 2) ∧
    keyIn ['A', 'B'] 2 "x" = ['A', 'B'] :=
  ⟨(c7_buffer_invariants "LETTERS").1 ["a", "minus", "backspace", "b", "c"]
      [] 2 (by decide) (by decide),
   (c7_buffer_invariants "LETTERS").2.1 "x" ['A', 'B'] 2 (by decide) rfl⟩

/-- C8 (amended): `submit()` returns the current text as value, together
with the first specify entry whose key EXACTLY equals the lower-cased
current text — no entry is returned when no key equals it.  Only the text is
lower-cased; the keys are compared verbatim. -/
theorem c8_submit_lowercases_text_only (text : List Char)
    (specify : List SpecEntry) :
    (contOptionSelected text specify).1 = String.mk text ∧
    ((contOptionSelected text specify).2.truthy = false ↔
       ∀ e ∈ specify,
         SpecEntry.key e ≠ String.mk (text.map Char.toLower)) ∧
    (∀ k q inp, (contOptionSelected text specify).2 = .entry k q inp →
       (k, q, inp) ∈ specify ∧
         k = String.mk (text.map Char.toLower)) := by
  refine ⟨rfl, ?_, ?_⟩
  · unfold contOptionSelected
    cases hf : specify.find?
        (fun e => SpecEntry.key e == String.mk (text.map Char.toLower)) with
    | none =>
        simp only [SpecVal.truthy]
        constructor
        · intro _ e he
          have hp := List.find?_eq_none.mp hf e he
          simpa [SpecEntry.key] using hp
        · intro _
          trivial
    | some e =>
        simp only [SpecVal.truthy]
        constructor
        · intro hfalse
          cases hfalse
        · intro hall
          have hmem := List.mem_of_find?_eq_some hf
          have hpred := List.find?_some hf
          have hkey : SpecEntry.key e = String.mk (text.map Char.toLower) :=
            by simpa using hpred
          exact absurd hkey (hall e hmem)
  · intro k q inp h
    unfold contOptionSelected at h
    simp only at h
    cases hf : specify.find?
        (fun e => SpecEntry.key e == String.mk (text.map Char.toLower)) with
    | none =>
        rw [hf] at h
        exact absurd h (by simp)
    | some e =>
        obtain ⟨a, b, c⟩ := e
        rw [hf] at h
        injection h with ha hb hc
        subst ha; subst hb; subst hc
        refine ⟨List.mem_of_find?_eq_some hf, ?_⟩
        have hpred := List.find?_some hf
        simpa [SpecEntry.key] using hpred

/-- Witness for C8's amended statement: with a lower-case key `ok` and
buffer text `OK`, the returned entry is the one whose key equals the
lower-cased text. -/
theorem c8_submit_lowercases_text_only_witness :
    ("ok", "Q", InputSpec.continuous "LETTERS" 5 []) ∈ c8LowerSpecify ∧
    "ok" = String.mk (['O', 'K'].map Char.toLower) :=
  (c8_submit_lowercases_text_only ['O', 'K'] c8LowerSpecify).2.2 "ok" "Q"
    (InputSpec.continuous "LETTERS" 5 []) rfl

/-- Reading a key from a nonempty JS-object association list. -/
theorem lookupStim_cons (a b : String) (t : List (String × String))
    (k' : String) :
    lookupStim ((a, b) :: t) k' =
      if a = k' then some b else lookupStim t k' := by
  unfold lookupStim
  rw [List.find?_cons]
  cases hb : ((a, b).1 == k') with
  | true =>
      have h : a = k' := by simpa using hb
      rw [if_pos h]
      rfl
  | false =>
      have h : ¬a = k' := by simpa using hb
      rw [if_neg h]

/-- A JS-object write followed by a read: the freshly written key reads the
new value; other keys are unaffected. -/
theorem lookupStim_upsert (m : List (String × String)) (k v k' : String) :
    lookupStim (upsert m k v) k' =
      if k' = k then some v else lookupStim m k' := by
  induction m with
  | nil =>
      show lookupStim [(k, v)] k' = _
      rw [lookupStim_cons]
      by_cases h : k = k'
      · rw [if_pos h, if_pos h.symm]
      · rw [if_neg h, if_neg (fun hk => h hk.symm)]
  | cons p rest ih =>
      obtain ⟨pk, pv⟩ := p
      show lookupStim
          (if pk = k then (k, v) :: rest else (pk, pv) :: upsert rest k v)
          k' = _
      by_cases hpk : pk = k
      · subst hpk
        rw [if_pos rfl, lookupStim_cons, lookupStim_cons]
        by_cases h : pk = k'
        · rw [if_pos h, if_pos h.symm]
        · rw [if_neg h, if_neg (fun hk => h hk.symm), if_neg h]
      · rw [if_neg hpk, lookupStim_cons]
        by_cases hp : pk = k'
        · have hkk : ¬k' = k := fun hk => hpk (hp.trans hk)
          rw [if_pos hp, if_neg hkk, lookupStim_cons, if_pos hp]
        · rw [if_neg hp, ih, lookupStim_cons, if_neg hp]

/-- Filling a JS object from an entry list and reading a key yields the
last written value for that key. -/
theorem foldl_upsert_lookup (inputs : List OptionEntry)
    (m : List (String × String)) (k : String) :
    lookupStim (inputs.foldl (fun acc el => upsert acc el.key el.value) m) k
      = inputs.foldl
          (fun acc e => if e.key == k then some e.value else acc)
          (lookupStim m k) := by
  induction inputs generalizing m with
  | nil => rfl
  | cons e es ih =>
      simp only [List.foldl_cons]
      rw [ih]
      by_cases h : e.key = k
      · simp [lookupStim_upsert, h]
      · have h2 : ¬k = e.key := fun hk => h hk.symm
        simp [lookupStim_upsert, h, h2]

/-- C5 (amended): survey load performs no validation — any survey loads
successfully with all its question indices scheduled; a duplicate option key
is silently collapsed, the last entry winning; and a discrete question
missing its required `inputs` array raises only when that question's
`_SurveyQuestionBegin` runs, not at load. -/
theorem c5_no_load_validation :
    (∀ s : Survey, loadSurvey s = .ok (s.questions.map (fun q => q.index))) ∧
    (∀ (inputs : List OptionEntry) (k : String),
       lookupStim (buildStimuli inputs) k = lastVal inputs k) ∧
    (∀ (st : SQState) (q : QuestionSpec) (now : ℚ)
       (specify : List SpecEntry) (skips : List SkipEntry),
       st.status ≠ SURVEY_SKIPPING →
       q.input = .discrete Option.none specify skips →
       surveyQuestionBegin st q now = .error .undefinedProperty) := by
  refine ⟨fun s => rfl, ?_, ?_⟩
  · intro inputs k
    exact foldl_upsert_lookup inputs [] k
  · intro st q now specify skips hs hq
    rw [surveyQuestionBegin, if_neg hs, beginBody, hq]
    rfl

/-- Witness for C5's amended statement: a discrete question with no `inputs`
array fails when it begins, from a non-skipping state. -/
theorem c5_no_load_validation_witness :
    surveyQuestionBegin startState
      { index := 7, question := "Bad"
        input := .discrete Option.none [] [] } 0
      = .error .undefinedProperty :=
  c5_no_load_validation.2.2 startState
    { index := 7, question := "Bad", input := .discrete Option.none [] [] }
    0 [] [] (by decide) rfl

/-- One instructions frame keeps the slide position in range or moves it to
the sentinel. -/
theorem instructionsEachFrame_range (len : Nat) (idx : Int)
    (keys : List String) (h0 : 0 ≤ idx) (h1 : idx ≤ (len : Int) - 1) :
    (0 ≤ (instructionsEachFrame idx len keys).1 ∧
       (instructionsEachFrame idx len keys).1 ≤ (len : Int) - 1) ∨
    (instructionsEachFrame idx len keys).1 = -1 := by
  cases keys with
  | nil => exact Or.inl ⟨h0, h1⟩
  | cons b rest =>
      simp only [instructionsEachFrame]
      by_cases hn : b = "n" ∧ idx < (len : Int) - 1
      · rw [if_pos hn]
        obtain ⟨-, hlt⟩ := hn
        exact Or.inl ⟨by omega, by omega⟩
      · rw [if_neg hn]
        by_cases hb : b = "b" ∧ idx > 0
        · rw [if_pos hb]
          obtain ⟨-, hgt⟩ := hb
          exact Or.inl ⟨by omega, by omega⟩
        · rw [if_neg hb]
          by_cases hf : b = "f" ∧ idx = (len : Int) - 1
          · rw [if_pos hf]
            exact Or.inr rfl
          · rw [if_neg hf]
            exact Or.inl ⟨h0, h1⟩

/-- After the sentinel is reached the scheduler is stopped: the position
never changes again. -/
theorem instructionsRun_stopped (len : Nat) (presses : List (List String)) :
    instructionsRun (-1) len presses = -1 := by
  cases presses with
  | nil => rfl
  | cons a b => rw [instructionsRun, if_pos rfl]

/-- C9: over any sequence of control key presses the slide position stays in
`[0, len - 1]` or equals the sentinel `-1`; `n` at the last slide and `b` at
the first slide are no-ops; and `f` moves the position to the sentinel
exactly when pressed at the last slide. -/
theorem c9_stepper_bounds (len : Nat) :
    (∀ (idx : Int) (presses : List (List String)), 0 ≤ idx →
       idx ≤ (len : Int) - 1 →
       (0 ≤ instructionsRun idx len presses ∧
          instructionsRun idx len presses ≤ (len : Int) - 1) ∨
       instructionsRun idx len presses = -1) ∧
    (∀ ks, instructionsEachFrame ((len : Int) - 1) len ("n" :: ks) =
       ((len : Int) - 1, false)) ∧
    (∀ ks, instructionsEachFrame 0 len ("b" :: ks) = (0, false)) ∧
    (∀ (idx : Int) (ks : List String), 0 ≤ idx →
       (instructionsEachFrame idx len ("f" :: ks)).1 = -1 →
       idx = (len : Int) - 1) ∧
    (∀ ks, instructionsEachFrame ((len : Int) - 1) len ("f" :: ks) =
       (-1, true)) := by
  refine ⟨?_, ?_, ?_, ?_, ?_⟩
  · intro idx presses h0 h1
    induction presses generalizing idx with
    | nil => exact Or.inl ⟨h0, h1⟩
    | cons keys rest ih =>
        unfold instructionsRun
        have hneg : ¬idx = -1 := by omega
        rw [if_neg hneg]
        rcases instructionsEachFrame_range len idx keys h0 h1 with ⟨ha, hb⟩ | hs
        · exact ih _ ha hb
        · rw [hs, instructionsRun_stopped]
          exact Or.inr rfl
  · intro ks
    simp [instructionsEachFrame]
  · intro ks
    simp [instructionsEachFrame]
  · intro idx ks h0 hres
    by_cases hc : idx = (len : Int) - 1
    · exact hc
    · exfalso
      simp [instructionsEachFrame, hc] at hres
      omega
  · intro ks
    simp [instructionsEachFrame]

/-- Witness for C9: a three-slide run `n`, `n`, `f` ends in range or at the
sentinel, and `f` accepted at position 2 of a three-slide deck means 2 was
the last slide. -/
theorem c9_stepper_bounds_witness :
    ((0 ≤ instructionsRun 0 3 [["n"], ["n"], ["f"]] ∧
        instructionsRun 0 3 [["n"], ["n"], ["f"]] ≤ (3 : Int) - 1) ∨
      instructionsRun 0 3 [["n"], ["n"], ["f"]] = -1) ∧
    (2 : Int) = (3 : Int) - 1 :=
  ⟨(c9_stepper_bounds 3).1 0 [["n"], ["n"], ["f"]] (by decide) (by decide),
   (c9_stepper_bounds 3).2.2.2.1 2 [] (by decide) (by decide)⟩

/-- The completed-iteration count of the instructions schedule never exceeds
its fuel. -/
theorem runInstructionsSchedule_le (fuel : Nat) (idx : Int) (len : Nat)
    (polls : List (List String)) :
    (runInstructionsSchedule fuel idx len polls).1 ≤ fuel := by
  induction fuel generalizing idx polls with
  | zero => exact Nat.le_refl 0
  | succ n ih =>
      cases h : framesUntilFinished idx len polls with
      | none =>
          have hred : runInstructionsSchedule (n + 1) idx len polls =
              (0, idx) := by
            rw [runInstructionsSchedule, h]
          rw [hred]
          exact Nat.zero_le _
      | some pr =>
          obtain ⟨idx', rest⟩ := pr
          by_cases hs : idx' = -1
          · have hred : runInstructionsSchedule (n + 1) idx len polls =
                (1, idx') := by
              rw [runInstructionsSchedule, h]
              dsimp only
              rw [if_pos hs]
            rw [hred]
            exact Nat.succ_le_succ (Nat.zero_le n)
          · have hred : (runInstructionsSchedule (n + 1) idx len polls).1 =
                (runInstructionsSchedule n idx' len rest).1 + 1 := by
              rw [runInstructionsSchedule, h]
              dsimp only
              rw [if_neg hs]
            rw [hred]
            exact Nat.succ_le_succ (ih idx' rest)

/-- C10: the instructions schedule consists of `MAX_INSTRUCTIONS = 200`
slide iterations, so any run — whatever the key presses, even with `f`
never accepted — completes at most 200 navigation steps before the schedule
is exhausted. -/
theorem c10_schedule_bounded (idx : Int) (len : Nat)
    (polls : List (List String)) :
    (runInstructionsSchedule MAX_INSTRUCTIONS idx len polls).1 ≤ 200 ∧
    MAX_INSTRUCTIONS = 200 :=
  ⟨runInstructionsSchedule_le MAX_INSTRUCTIONS idx len polls, rfl⟩

end Questionnaire

